import Mathlib

/-!
Shallow embedding of the Uber Rides Analytics Dashboard core
(src/preprocess.py, src/metrics.py, app.py) in Lean 4.

Data values are modelled exactly: monetary values, distances and ratings
are rationals (`ℚ`); nullable columns are `Option`; pandas `NaN` results
of aggregations are `Option.none`.  Timestamp parsing
(`pd.to_datetime(..., format="%Y-%m-%d %H:%M:%S", errors="coerce")`)
is modelled by a real parser returning `Option Timestamp`, with `none`
playing the role of `NaT`.
-/

namespace Uber

/-- Split a character list on a separator character, keeping empty segments
(mirrors splitting the `"Date Time"` text on `' '`, `'-'`, `':'`). -/
def splitOnChar (c : Char) (l : List Char) : List (List Char) :=
  l.foldr
    (fun ch acc =>
      if ch = c then [] :: acc
      else
        match acc with
        | [] => [[ch]]
        | a :: as => (ch :: a) :: as)
    [[]]

/-- Parse a non-empty all-digit character list as a decimal number. -/
def digitsToNat (l : List Char) : Option Nat :=
  if l = [] then none
  else if l.all (fun c => c.isDigit) then
    some (l.foldl (fun n c => n * 10 + (c.toNat - 48)) 0)
  else none

/-- A parsed wall-clock timestamp (the model of a non-NaT pandas datetime). -/
structure Timestamp where
  year : Nat
  month : Nat
  day : Nat
  hour : Nat
  minute : Nat
  second : Nat
deriving DecidableEq, Repr

/-- Gregorian leap-year test. -/
def isLeap (y : Nat) : Bool :=
  (y % 4 = 0 && y % 100 ≠ 0) || y % 400 = 0

/-- Days in a calendar month. -/
def daysInMonth (y m : Nat) : Nat :=
  if m = 2 then (if isLeap y then 29 else 28)
  else if m = 4 ∨ m = 6 ∨ m = 9 ∨ m = 11 then 30
  else 31

/-- Parser for the exact format `%Y-%m-%d %H:%M:%S`; `none` models `NaT`
(`errors="coerce"`). -/
def parseTimestamp (s : String) : Option Timestamp :=
  match splitOnChar ' ' s.data with
  | [d, t] =>
    match splitOnChar '-' d, splitOnChar ':' t with
    | [ys, ms, ds], [hs, mins, ss] =>
      match digitsToNat ys, digitsToNat ms, digitsToNat ds,
            digitsToNat hs, digitsToNat mins, digitsToNat ss with
      | some y, some mo, some da, some h, some mi, some se =>
        if 1 ≤ y ∧ 1 ≤ mo ∧ mo ≤ 12 ∧ 1 ≤ da ∧ da ≤ daysInMonth y mo ∧
            h ≤ 23 ∧ mi ≤ 59 ∧ se ≤ 59 then
          some ⟨y, mo, da, h, mi, se⟩
        else none
      | _, _, _, _, _, _ => none
    | _, _ => none
  | _ => none

/-- Day-of-week index via Sakamoto's congruence; `0` is Sunday. -/
def dayOfWeekIdx (y m d : Nat) : Nat :=
  let t : List Nat := [0, 3, 2, 5, 0, 3, 5, 1, 4, 6, 2, 4]
  let y' := if m < 3 then y - 1 else y
  (y' + y' / 4 + y' / 400 + t.getD (m - 1) 0 + d - y' / 100) % 7

/-- English day names indexed by `dayOfWeekIdx` (Sunday first, as in the
congruence). -/
def sundayFirstNames : List String :=
  ["Sunday", "Monday", "Tuesday", "Wednesday", "Thursday", "Friday", "Saturday"]

/-- The day name of a timestamp (model of `Timestamp.dt.day_name()`). -/
def dayNameOf (ts : Timestamp) : String :=
  sundayFirstNames.getD (dayOfWeekIdx ts.year ts.month ts.day) ("Sunday")

/-- English month names (model of `Timestamp.dt.month_name()`). -/
def monthNames : List String :=
  ["January", "February", "March", "April", "May", "June", "July",
   "August", "September", "October", "November", "December"]

/-- The month name of a timestamp. -/
def monthNameOf (ts : Timestamp) : String :=
  monthNames.getD (ts.month - 1) ("January")

/-- One raw booking record, as read from the CSV (columns used by the core). -/
structure RawRow where
  bookingId : String
  date : String
  time : String
  bookingStatus : String
  vehicleType : String
  bookingValue : ℚ
  rideDistance : ℚ
  driverRatings : Option ℚ
  paymentMethod : Option String
  avgCtat : ℚ
deriving DecidableEq, Repr

/-- A booking record after `add_derived_features`. -/
structure Row where
  bookingId : String
  date : String
  time : String
  bookingStatus : String
  vehicleType : String
  bookingValue : ℚ
  rideDistance : ℚ
  driverRatings : Option ℚ
  paymentMethod : String
  avgCtat : ℚ
  timestamp : Option Timestamp
  hour : Option Nat
  dayOfWeek : Option String
  month : Option String
  revenue : ℚ
  highValueTrip : Nat
  tripDurationCategory : Option String
  isPeakHour : Nat
deriving DecidableEq, Repr

/-- Mean with linear interpolation free: `quantile(0.75)` of pandas on a
non-empty value list (default linear interpolation); `none` models the NaN
quantile of an empty series. -/
def quantile75 (vals : List ℚ) : Option ℚ :=
  let s := List.insertionSort (fun a b : ℚ => a ≤ b) vals
  match s with
  | [] => none
  | _ :: _ =>
    let m := s.length - 1
    let i := 3 * m / 4
    let lo := s.getD i 0
    let hi := s.getD (i + 1) lo
    some (lo + ((3 * m : ℚ) / 4 - (i : ℚ)) * (hi - lo))

/-- Booking values of the Completed rows of the raw input
(`df[df["Booking Status"] == "Completed"]["Booking Value"]`). -/
def completedValues (l : List RawRow) : List ℚ :=
  (l.filter (fun r => r.bookingStatus = "Completed")).map (fun r => r.bookingValue)

/-- The once-computed High-Value threshold
(`df[...Completed...]["Booking Value"].quantile(0.75)`); `none` models the
NaN threshold obtained when no Completed rows exist. -/
def booking_value_threshold (l : List RawRow) : Option ℚ :=
  quantile75 (completedValues l)

/-- Peak hours used by `Is_Peak_Hour`. -/
def peakHours : List Nat := [7, 8, 9, 17, 18, 19]

/-- Derivation of one augmented row, given the (global) High-Value
threshold.  Mirrors the column assignments of `add_derived_features`
line by line; a comparison with the `none` threshold is `False`, exactly
as a comparison with NaN in Python. -/
def deriveRow (thr : Option ℚ) (r : RawRow) : Row :=
  let ts := parseTimestamp (r.date ++ " " ++ r.time)
  { bookingId := r.bookingId
    date := r.date
    time := r.time
    bookingStatus := r.bookingStatus
    vehicleType := r.vehicleType
    bookingValue := r.bookingValue
    rideDistance := r.rideDistance
    driverRatings := r.driverRatings
    paymentMethod := r.paymentMethod.getD ("No Payment")
    avgCtat := r.avgCtat
    timestamp := ts
    hour := ts.map (fun t => t.hour)
    dayOfWeek := ts.map dayNameOf
    month := ts.map monthNameOf
    revenue := if r.bookingStatus = "Completed" then r.bookingValue else 0
    highValueTrip :=
      match thr with
      | none => 0
      | some t => if t ≤ r.bookingValue then 1 else 0
    tripDurationCategory :=
      if r.avgCtat < 0 then none
      else if r.avgCtat ≤ 10 then some ("Short")
      else if r.avgCtat ≤ 30 then some ("Medium")
      else some ("Long")
    isPeakHour :=
      match ts with
      | none => 0
      | some t => if t.hour ∈ peakHours then 1 else 0 }

/-- `add_derived_features` of src/preprocess.py: computes the High-Value
threshold once over the whole input and maps the per-row derivation. -/
def add_derived_features (l : List RawRow) : List Row :=
  l.map (deriveRow (booking_value_threshold l))

/-- The scalar KPI dictionary of `calculate_ride_metrics`.
`avg_driver_rating` is `Option ℚ` because `Series.mean()` of an all-NaN
non-empty column is NaN (`none`); a plain number `q` is `some q`. -/
structure RideMetrics where
  total_rides : Nat
  success_rate : ℚ
  customer_cancellation_rate : ℚ
  driver_cancellation_rate : ℚ
  avg_revenue : ℚ
  avg_driver_rating : Option ℚ
deriving DecidableEq, Repr

/-- NaN-skipping mean of pandas `Series.mean()`: the argument list holds the
non-null entries; the mean of an empty list is NaN (`none`). -/
def meanOpt (vals : List ℚ) : Option ℚ :=
  if vals.length = 0 then none else some (vals.sum / vals.length)

/-- `calculate_ride_metrics` of src/metrics.py. -/
def calculate_ride_metrics (l : List Row) : RideMetrics :=
  { total_rides := l.length
    success_rate :=
      if 0 < l.length then
        (l.countP (fun r => r.bookingStatus = "Completed") : ℚ) / l.length * 100
      else 0
    customer_cancellation_rate :=
      if 0 < l.length then
        (l.countP (fun r => r.bookingStatus = "Cancelled by Customer") : ℚ) / l.length * 100
      else 0
    driver_cancellation_rate :=
      if 0 < l.length then
        (l.countP (fun r => r.bookingStatus = "Cancelled by Driver") : ℚ) / l.length * 100
      else 0
    avg_revenue :=
      if 0 < l.length then (l.map (fun r => r.revenue)).sum / l.length else 0
    avg_driver_rating :=
      if 0 < l.length then meanOpt (l.filterMap (fun r => r.driverRatings)) else some 0 }

/-- Generic model of a pandas `groupby(key).count()` over a nullable key:
rows whose key is null (`none`) are dropped, the distinct keys present are
listed in the order prescribed by `le`, and each key carries the number of
rows bearing it. -/
def volumeAgg {K : Type} [DecidableEq K] (k : Row → Option K)
    (le : K → K → Prop) [DecidableRel le] (l : List Row) : List (K × Nat) :=
  (List.insertionSort le (l.filterMap k).dedup).map
    (fun key => (key, l.countP (fun r => k r = some key)))

/-- The grouping key of the `"Hour"` branch of `prepare_volume_data`
(`df["Timestamp"].dt.hour`, NaN for NaT). -/
def hourKey (r : Row) : Option Nat :=
  r.timestamp.map (fun t => t.hour)

/-- The grouping key of the `"Day of Week"` branch
(`df["Timestamp"].dt.day_name()`). -/
def dowKey (r : Row) : Option String :=
  r.timestamp.map dayNameOf

/-- The grouping key of the `"Month"` branch
(`df["Timestamp"].dt.to_period("M")`, a year–month pair). -/
def monthKey (r : Row) : Option (Nat × Nat) :=
  r.timestamp.map (fun t => (t.year, t.month))

/-- The categorical week order used to re-sort the day-of-week groups. -/
def day_order : List String :=
  ["Monday", "Tuesday", "Wednesday", "Thursday", "Friday", "Saturday", "Sunday"]

/-- Index of a day name in `day_order` (the sort key given by
`pd.Categorical(..., categories=day_order, ordered=True)`). -/
def dayIdx (s : String) : Nat :=
  day_order.findIdx (fun d => d = s)

/-- Chronological order on year–month periods. -/
def periodLe (a b : Nat × Nat) : Prop :=
  a.1 < b.1 ∨ (a.1 = b.1 ∧ a.2 ≤ b.2)

instance : DecidableRel periodLe := fun a b => by
  unfold periodLe; infer_instance

/-- The `"Hour"` branch of `prepare_volume_data`: group keys of a numeric
groupby come out in ascending order. -/
def prepare_volume_data_hour (l : List Row) : List (Nat × Nat) :=
  volumeAgg hourKey (fun a b => a ≤ b) l

/-- The `"Day of Week"` branch of `prepare_volume_data`: groups re-sorted by
the categorical Monday→Sunday order. -/
def prepare_volume_data_dow (l : List Row) : List (String × Nat) :=
  volumeAgg dowKey (fun a b => dayIdx a ≤ dayIdx b) l

/-- The `"Month"` branch of `prepare_volume_data`: period keys come out in
chronological order (their `astype(str)` rendering is presentation only). -/
def prepare_volume_data_month (l : List Row) : List ((Nat × Nat) × Nat) :=
  volumeAgg monthKey periodLe l

/-- The x-axis tick values the `"Hour"` branch always returns
(`list(range(24))`). -/
def hour_tickvals : List Nat := List.range 24

/-- Round-half-to-even on integers scaled from a rational, as numpy rounds. -/
def roundHalfEven (q : ℚ) : ℤ :=
  let f := ⌊q⌋
  let r := q - (f : ℚ)
  if r < 1 / 2 then f
  else if 1 / 2 < r then f + 1
  else if f % 2 = 0 then f else f + 1

/-- `DataFrame.round(d)` on one value: round to `d` decimal places. -/
def round_to (d : Nat) (q : ℚ) : ℚ :=
  (roundHalfEven (q * 10 ^ d) : ℚ) / 10 ^ d

/-- One row of the `vehicle_type_metrics_dataframe` table.  The mean driver
rating of a group is `Option ℚ` because a group whose ratings are all null
has a NaN mean. -/
structure VehicleMetricsRow where
  vehicleType : String
  totalBookings : Nat
  successRate : ℚ
  incompleteRate : ℚ
  cancellationRate : ℚ
  averageRevenue : ℚ
  averageDistance : ℚ
  averageDriverRating : Option ℚ
deriving DecidableEq, Repr

/-- Lexicographic order on strings as character lists (the ascending key
order of a pandas groupby over a string column). -/
def charListLe : List Char → List Char → Prop
  | [], _ => True
  | _ :: _, [] => False
  | a :: as, b :: bs => a < b ∨ (a = b ∧ charListLe as bs)

instance : DecidableRel charListLe := fun a b => by
  induction a generalizing b with
  | nil => exact isTrue trivial
  | cons x xs ih =>
    cases b with
    | nil => exact isFalse (fun h => h)
    | cons y ys => unfold charListLe; have := ih ys; infer_instance

/-- String order for group keys. -/
def strLe (a b : String) : Prop := charListLe a.data b.data

instance : DecidableRel strLe := fun a b => by
  unfold strLe; infer_instance

/-- The aggregation computed for one vehicle-type group: the per-column
`agg` dictionary of `vehicle_type_metrics_dataframe` followed by the
display rounding. -/
def vehicleRowOf (l : List Row) (v : String) : VehicleMetricsRow :=
  let g := l.filter (fun r => r.vehicleType = v)
  let n := g.length
  { vehicleType := v
    totalBookings := n
    successRate :=
      round_to 1 ((g.countP (fun r => r.bookingStatus = "Completed") : ℚ) / n * 100)
    incompleteRate :=
      round_to 1 ((g.countP (fun r => r.bookingStatus = "Incomplete") : ℚ) / n * 100)
    cancellationRate :=
      round_to 1 ((g.countP (fun r =>
        r.bookingStatus = "Cancelled by Customer" ∨
        r.bookingStatus = "Cancelled by Driver") : ℚ) / n * 100)
    averageRevenue := round_to 2 ((g.map (fun r => r.bookingValue)).sum / n)
    averageDistance := round_to 2 ((g.map (fun r => r.rideDistance)).sum / n)
    averageDriverRating :=
      (meanOpt (g.filterMap (fun r => r.driverRatings))).map (round_to 2) }

/-- `vehicle_type_metrics_dataframe` of src/metrics.py: one output row per
vehicle type present, percentages rounded to 1 decimal, means to 2. -/
def vehicle_type_metrics_dataframe (l : List Row) : List VehicleMetricsRow :=
  (List.insertionSort strLe (l.map (fun r => r.vehicleType)).dedup).map
    (vehicleRowOf l)

/-- The `filtered_df` computation of app.py including its empty-selection
fallback: if the mask selects no rows the full dataset is used instead. -/
def filtered_df (p : Row → Bool) (df : List Row) : List Row :=
  let fd := df.filter p
  if fd.isEmpty then df else fd

/-- A convenience constructor for concrete test rows: derives a full `Row`
from raw fields via `deriveRow` (threshold irrelevant for the tests that
use it). -/
def mkTestRow (st v : String) (bv dist : ℚ) (rat : Option ℚ) (d t : String) : Row :=
  deriveRow none
    { bookingId := "B1"
      date := d
      time := t
      bookingStatus := st
      vehicleType := v
      bookingValue := bv
      rideDistance := dist
      driverRatings := rat
      paymentMethod := some ("UPI")
      avgCtat := 5 }

/-!  ### General lemmas about the grouped aggregation  -/

theorem sum_map_add {α : Type} (f g : α → Nat) (K : List α) :
    (K.map (fun x => f x + g x)).sum = (K.map f).sum + (K.map g).sum := by
  induction K with
  | nil => simp
  | cons a t ih => simp [ih]; omega

theorem sum_map_zero {α : Type} (K : List α) :
    (K.map (fun _ => (0 : Nat))).sum = 0 := by
  induction K with
  | nil => rfl
  | cons a t ih => simp

theorem sum_indicator {K' : Type} [DecidableEq K'] (key0 : K') (Kl : List K')
    (hnd : Kl.Nodup) (hmem : key0 ∈ Kl) :
    (Kl.map (fun key => if key0 = key then 1 else 0)).sum = 1 := by
  induction Kl with
  | nil => cases hmem
  | cons a t ih =>
    rcases List.mem_cons.mp hmem with h | h
    · subst h
      have hnot : key0 ∉ t := (List.nodup_cons.mp hnd).1
      have hz : (t.map (fun key => if key0 = key then 1 else 0)).sum = 0 := by
        have hcongr : t.map (fun key => if key0 = key then 1 else 0)
            = t.map (fun _ => (0 : Nat)) := by
          refine List.map_congr_left (fun key hk => ?_)
          exact if_neg (by rintro rfl; exact hnot hk)
        rw [hcongr, sum_map_zero]
      simp [hz]
    · have hne : key0 ≠ a := by rintro rfl; exact (List.nodup_cons.mp hnd).1 h
      simp [hne, ih (List.nodup_cons.mp hnd).2 h]

/-- Partition lemma: summing the per-key counts over a duplicate-free key
list that covers every non-null key of the rows counts exactly the rows
with a non-null key. -/
theorem countP_partition {α K' : Type} [DecidableEq K'] (k : α → Option K') :
    ∀ (l : List α) (Kl : List K'), Kl.Nodup →
      (∀ r ∈ l, ∀ key, k r = some key → key ∈ Kl) →
      (Kl.map (fun key => l.countP (fun r => k r = some key))).sum
        = l.countP (fun r => (k r).isSome) := by
  intro l
  induction l with
  | nil => intro Kl _ _; simp
  | cons a t ih =>
    intro Kl hnd hcov
    have hcov' : ∀ r ∈ t, ∀ key, k r = some key → key ∈ Kl :=
      fun r hr => hcov r (List.mem_cons_of_mem a hr)
    have hsplit : Kl.map (fun key => (a :: t).countP (fun r => k r = some key))
        = Kl.map (fun key =>
            t.countP (fun r => k r = some key) + if k a = some key then 1 else 0) := by
      refine List.map_congr_left (fun key _ => ?_)
      rw [List.countP_cons]
      simp
    rw [hsplit, sum_map_add, ih Kl hnd hcov', List.countP_cons]
    cases hka : k a with
    | none =>
      have hz : Kl.map (fun key => if (none : Option K') = some key then 1 else 0)
          = Kl.map (fun _ => (0 : Nat)) :=
        List.map_congr_left (fun key _ => by simp)
      rw [hz, sum_map_zero]
      simp
    | some key0 =>
      have hone : Kl.map (fun key => if some key0 = some key then 1 else 0)
          = Kl.map (fun key => if key0 = key then 1 else 0) :=
        List.map_congr_left (fun key _ => by simp)
      rw [hone, sum_indicator key0 Kl hnd (hcov a (List.mem_cons_self a t) key0 hka)]
      simp

/-- The counts of a grouped aggregate sum to the number of rows with a
non-null key: null-key rows are excluded from every bucket. -/
theorem volumeAgg_sum {K : Type} [DecidableEq K] (k : Row → Option K)
    (le : K → K → Prop) [DecidableRel le] (l : List Row) :
    ((volumeAgg k le l).map (fun p => p.2)).sum
      = l.countP (fun r => (k r).isSome) := by
  unfold volumeAgg
  rw [List.map_map]
  have hperm : List.Perm (List.insertionSort le (l.filterMap k).dedup)
      (l.filterMap k).dedup :=
    List.perm_insertionSort le _
  have hsum := (hperm.map (fun key => l.countP (fun r => k r = some key))).sum_eq
  have hcomp : ((fun p : K × Nat => p.2) ∘ fun key => (key, l.countP (fun r => k r = some key)))
      = fun key => l.countP (fun r => k r = some key) := rfl
  rw [hcomp, hsum]
  refine countP_partition k l _ (List.nodup_dedup _) (fun r hr key hk => ?_)
  exact List.mem_dedup.mpr (List.mem_filterMap.mpr ⟨r, hr, hk⟩)

/-- Membership in a grouped aggregate: a pair `(key, c)` appears iff some
row bears `key` and `c` is the number of rows bearing it. -/
theorem volumeAgg_mem {K : Type} [DecidableEq K] (k : Row → Option K)
    (le : K → K → Prop) [DecidableRel le] (l : List Row) (key : K) (c : Nat) :
    (key, c) ∈ volumeAgg k le l ↔
      (0 < l.countP (fun r => k r = some key) ∧
        c = l.countP (fun r => k r = some key)) := by
  unfold volumeAgg
  rw [List.mem_map]
  constructor
  · rintro ⟨key', hk', heq⟩
    rw [Prod.ext_iff] at heq
    obtain ⟨h1, h2⟩ := heq
    dsimp at h1 h2
    subst h1
    have hmem : key' ∈ (l.filterMap k).dedup :=
      (List.perm_insertionSort le _).mem_iff.mp hk'
    obtain ⟨r, hr, hkr⟩ := List.mem_filterMap.mp (List.mem_dedup.mp hmem)
    exact ⟨List.countP_pos_iff.mpr ⟨r, hr, by simp [hkr]⟩, h2.symm⟩
  · rintro ⟨hpos, rfl⟩
    obtain ⟨r, hr, hkr⟩ := List.countP_pos_iff.mp hpos
    refine ⟨key, ?_, rfl⟩
    refine (List.perm_insertionSort le _).mem_iff.mpr ?_
    exact List.mem_dedup.mpr
      (List.mem_filterMap.mpr ⟨r, hr, by simpa using hkr⟩)

/-- The key column of a grouped aggregate, as a list. -/
theorem volumeAgg_keys {K : Type} [DecidableEq K] (k : Row → Option K)
    (le : K → K → Prop) [DecidableRel le] (l : List Row) :
    (volumeAgg k le l).map (fun p => p.1)
      = List.insertionSort le (l.filterMap k).dedup := by
  unfold volumeAgg
  rw [List.map_map]
  have hcomp : ((fun p : K × Nat => p.1) ∘
      fun key => (key, l.countP (fun r => k r = some key))) = id := rfl
  rw [hcomp, List.map_id]

/-- The key column of a grouped aggregate has no duplicates. -/
theorem volumeAgg_keys_nodup {K : Type} [DecidableEq K] (k : Row → Option K)
    (le : K → K → Prop) [DecidableRel le] (l : List Row) :
    ((volumeAgg k le l).map (fun p => p.1)).Nodup := by
  rw [volumeAgg_keys]
  exact (List.perm_insertionSort le _).symm.nodup (List.nodup_dedup _)

/-- The key column of a grouped aggregate is sorted by the chosen order. -/
theorem volumeAgg_keys_sorted {K : Type} [DecidableEq K] (k : Row → Option K)
    (le : K → K → Prop) [DecidableRel le] [IsTotal K le] [IsTrans K le]
    (l : List Row) :
    List.Sorted le ((volumeAgg k le l).map (fun p => p.1)) := by
  rw [volumeAgg_keys]
  exact List.sorted_insertionSort le _

/-!  ### Concrete records used in counterexamples and witnesses  -/

/-- A Completed raw booking on Monday 2024-01-01. -/
def rawC100 : RawRow :=
  { bookingId := "B1"
    date := "2024-01-01"
    time := "05:00:00"
    bookingStatus := "Completed"
    vehicleType := "Auto"
    bookingValue := 100
    rideDistance := 10
    driverRatings := some 5
    paymentMethod := some ("UPI")
    avgCtat := 5 }

/-- A second Completed raw booking. -/
def rawC300 : RawRow :=
  { rawC100 with bookingId := "B2", time := "22:00:00", bookingValue := 300 }

/-- A Cancelled-by-Driver raw booking. -/
def rawX50 : RawRow :=
  { rawC100 with
      bookingId := "B3"
      bookingStatus := "Cancelled by Driver"
      bookingValue := 50
      driverRatings := none }

/-- A raw booking whose date text is unparsable. -/
def rawBad : RawRow :=
  { rawC100 with bookingId := "B4", date := "not-a-date", time := "xx" }

/-- The three-row raw set of the running example (2 Completed, 1
Cancelled by Driver, one vehicle type). -/
def rawsC4 : List RawRow := [rawC100, rawC300, rawX50]

/-- The first row of the running example after derivation. -/
def rowEx1 : Row := deriveRow (booking_value_threshold [rawC100]) rawC100

/-- A derived row whose timestamp falls at hour 5 (Monday). -/
def rowH5 : Row :=
  mkTestRow ("Completed") ("Auto") 100 10 (some 4) ("2024-01-01") ("05:00:00")

/-- A derived row on Wednesday 2024-01-03. -/
def rowWed : Row :=
  mkTestRow ("Completed") ("Auto") 80 7 (some 4) ("2024-01-03") ("11:00:00")

/-- A derived row with a null driver rating. -/
def rowNoRate : Row :=
  mkTestRow ("Cancelled by Driver") ("Auto") 50 0 none ("2024-01-02") ("08:00:00")

/-!  ### Claims  -/

/-- C2: for the empty record set the scalar KPI summary is total count 0
and every rate and mean exactly 0 (`some 0`, i.e. the number 0 and not
NaN), and the computation is total — no error is possible. -/
theorem c2_empty_metrics_all_zero :
    calculate_ride_metrics [] =
      { total_rides := 0
        success_rate := 0
        customer_cancellation_rate := 0
        driver_cancellation_rate := 0
        avg_revenue := 0
        avg_driver_rating := some 0 } := by
  rfl

/-- C3: in the derived record set, Revenue equals the booking value
exactly on Completed rows and is 0 on all other rows. -/
theorem c3_revenue_completed_iff (l : List RawRow) (r : Row)
    (hr : r ∈ add_derived_features l) :
    (r.bookingStatus = "Completed" → r.revenue = r.bookingValue) ∧
    (r.bookingStatus ≠ "Completed" → r.revenue = 0) := by
  obtain ⟨r0, _, rfl⟩ := List.mem_map.mp hr
  constructor
  · intro h
    simp only [deriveRow] at h ⊢
    rw [if_pos h]
  · intro h
    simp only [deriveRow] at h ⊢
    rw [if_neg h]

/-- Witness for C3 at a concrete Completed row. -/
theorem c3_revenue_completed_iff_witness :
    rowEx1 ∈ add_derived_features [rawC100] ∧
    rowEx1.revenue = rowEx1.bookingValue :=
  ⟨List.mem_singleton_self _,
   (c3_revenue_completed_iff [rawC100] rowEx1 (List.mem_singleton_self _)).1 rfl⟩

/-- C9: when the sidebar mask selects zero rows, app.py swaps in the full
dataset, so the record set handed to the Metrics Calculator (and every
render) is the full dataset and the empty-selection zero policy is not
exercised. -/
theorem c9_empty_selection_fallback (df : List Row) (p : Row → Bool)
    (h : df.filter p = []) :
    filtered_df p df = df ∧
    calculate_ride_metrics (filtered_df p df) = calculate_ride_metrics df := by
  have hfd : filtered_df p df = df := by
    unfold filtered_df
    rw [h]
    rfl
  exact ⟨hfd, by rw [hfd]⟩

/-- Witness for C9 with an everywhere-false mask. -/
theorem c9_empty_selection_fallback_witness :
    List.filter (fun _ => false) [rowEx1] = [] ∧
    filtered_df (fun _ => false) [rowEx1] = [rowEx1] :=
  ⟨rfl, (c9_empty_selection_fallback [rowEx1] (fun _ => false) rfl).1⟩

/-- C10: on a non-empty record set `avg_driver_rating` is the mean of the
non-null ratings only, and it is NaN (`none`), not 0, when every rating of
a non-empty set is null. -/
theorem c10_avg_rating_skips_nulls (l : List Row) (h : l ≠ []) :
    (calculate_ride_metrics l).avg_driver_rating
        = meanOpt (l.filterMap (fun r => r.driverRatings)) ∧
    ((∀ r ∈ l, r.driverRatings = none) →
      (calculate_ride_metrics l).avg_driver_rating = none) := by
  have hlen : 0 < l.length := List.length_pos.mpr h
  constructor
  · unfold calculate_ride_metrics
    simp [hlen]
  · intro hall
    have hnil : l.filterMap (fun r => r.driverRatings) = [] :=
      List.filterMap_eq_nil_iff.mpr hall
    unfold calculate_ride_metrics meanOpt
    simp [hlen, hnil]

/-- Witness for C10: with ratings `some 4` and `none`, the KPI rating is
`4` (the null-skipping mean), not `2` (the sum over the total count); with
only null ratings it is NaN. -/
theorem c10_avg_rating_skips_nulls_witness :
    ([rowH5, rowNoRate] ≠ ([] : List Row)) ∧
    (calculate_ride_metrics [rowH5, rowNoRate]).avg_driver_rating = some 4 ∧
    (calculate_ride_metrics [rowNoRate]).avg_driver_rating = none := by
  refine ⟨by simp, ?_, ?_⟩
  · rw [(c10_avg_rating_skips_nulls [rowH5, rowNoRate] (by simp)).1]
    have hfm : List.filterMap (fun r => r.driverRatings) [rowH5, rowNoRate]
        = [(4 : ℚ)] := rfl
    rw [hfm]
    norm_num [meanOpt]
  · exact (c10_avg_rating_skips_nulls [rowNoRate] (by simp)).2
      (by intro r hr; fin_cases hr; rfl)

/-- C1 (counterexample): on a one-row record set whose only timestamp falls
at hour 5, the Hour volume aggregation returns a single bucket, not 24 —
`groupby` emits only the hours present. -/
theorem c1_hour_counterexample :
    (prepare_volume_data_hour [rowH5]).length ≠ 24 := by
  decide

/-- C1 (amended): the Hour volume aggregation returns one `(hour, count)`
pair per distinct hour present among rows with a non-null timestamp, in
strictly ascending hour order, where each count is the number of rows of
that hour; the 24 fixed labels 0..23 are only the chart tick values. -/
theorem c1_hour_buckets_present_ascending (l : List Row) :
    List.Pairwise (fun a b : Nat × Nat => a.1 < b.1) (prepare_volume_data_hour l) ∧
    (∀ h c, (h, c) ∈ prepare_volume_data_hour l ↔
      (0 < l.countP (fun r => hourKey r = some h) ∧
        c = l.countP (fun r => hourKey r = some h))) ∧
    hour_tickvals.length = 24 := by
  refine ⟨?_, ?_, rfl⟩
  · have hs := volumeAgg_keys_sorted hourKey (fun a b : Nat => a ≤ b) l
    have hn := volumeAgg_keys_nodup hourKey (fun a b : Nat => a ≤ b) l
    have hlt : List.Pairwise (fun a b : Nat => a < b)
        ((volumeAgg hourKey (fun a b : Nat => a ≤ b) l).map (fun p => p.1)) :=
      (hs.and hn).imp (fun hab => lt_of_le_of_ne hab.1 hab.2)
    exact (List.pairwise_map.mp hlt).imp (fun hab => hab)
  · intro h c
    exact volumeAgg_mem hourKey (fun a b : Nat => a ≤ b) l h c

/-- Witness for C1 (amended) at the one-row record set: the pair `(5, 1)`
is a bucket. -/
theorem c1_hour_buckets_witness :
    ((5 : Nat), (1 : Nat)) ∈ prepare_volume_data_hour [rowH5] :=
  ((c1_hour_buckets_present_ascending [rowH5]).2.1 5 1).mpr ⟨by decide, by decide⟩

/-- C4: the High-Value threshold is the 75th percentile of booking value
over the Completed rows of the entire input, computed once for the whole
derivation; a row is flagged iff its booking value is at or above the
threshold; and when no Completed rows exist no row is flagged. -/
theorem c4_high_value_threshold_policy (l : List RawRow) :
    booking_value_threshold l
        = quantile75 ((l.filter (fun r => r.bookingStatus = "Completed")).map
            (fun r => r.bookingValue)) ∧
    ((∀ r ∈ l, r.bookingStatus ≠ "Completed") →
      ∀ r ∈ add_derived_features l, r.highValueTrip = 0) ∧
    (∀ t, booking_value_threshold l = some t →
      ∀ r ∈ add_derived_features l, (r.highValueTrip = 1 ↔ t ≤ r.bookingValue)) := by
  refine ⟨rfl, ?_, ?_⟩
  · intro hnone r hr
    obtain ⟨r0, _, rfl⟩ := List.mem_map.mp hr
    have hfe : l.filter (fun r => r.bookingStatus = "Completed") = [] :=
      List.filter_eq_nil_iff.mpr (fun a ha => by simpa using hnone a ha)
    have hthr : booking_value_threshold l = none := by
      unfold booking_value_threshold completedValues
      rw [hfe]
      rfl
    rw [hthr]
    simp [deriveRow]
  · intro t ht r hr
    obtain ⟨r0, _, rfl⟩ := List.mem_map.mp hr
    rw [ht]
    by_cases hle : t ≤ r0.bookingValue
    · simp [deriveRow, hle]
    · simp [deriveRow, hle]

/-- Witness for C4: on the three-row example the threshold is the
interpolated 75th percentile 250 of the Completed values 100 and 300, the
flag criterion is `250 ≤ value`, and a set with no Completed row flags
nothing. -/
theorem c4_high_value_threshold_policy_witness :
    booking_value_threshold rawsC4 = some 250 ∧
    (∀ r ∈ add_derived_features rawsC4,
      (r.highValueTrip = 1 ↔ (250 : ℚ) ≤ r.bookingValue)) ∧
    (∀ r ∈ add_derived_features [rawX50], r.highValueTrip = 0) := by
  have h1 : completedValues rawsC4 = [100, 300] := rfl
  have h2 : List.insertionSort (fun a b : ℚ => a ≤ b) [(100 : ℚ), 300]
      = [100, 300] := by
    norm_num [List.insertionSort, List.orderedInsert]
  have hth : booking_value_threshold rawsC4 = some 250 := by
    unfold booking_value_threshold
    rw [h1]
    simp only [quantile75, h2]
    norm_num
  refine ⟨hth, (c4_high_value_threshold_policy rawsC4).2.2 250 hth,
    (c4_high_value_threshold_policy [rawX50]).2.1 ?_⟩
  intro r hr
  fin_cases hr
  decide

/-- C5: every row surviving the app's interactive filter carries exactly
the High-Value flag computed from the threshold of the full unfiltered
raw dataset — filtering never recomputes the flag. -/
theorem c5_flag_invariant_under_filtering (raw : List RawRow) (p : Row → Bool)
    (r : Row) (hr : r ∈ filtered_df p (add_derived_features raw)) :
    r.highValueTrip =
      match booking_value_threshold raw with
      | none => 0
      | some t => if t ≤ r.bookingValue then 1 else 0 := by
  have hr' : r ∈ add_derived_features raw := by
    simp only [filtered_df] at hr
    by_cases he : ((add_derived_features raw).filter p).isEmpty
    · rw [if_pos he] at hr
      exact hr
    · rw [if_neg he] at hr
      exact List.mem_of_mem_filter hr
  obtain ⟨r0, _, rfl⟩ := List.mem_map.mp hr'
  cases booking_value_threshold raw with
  | none => simp [deriveRow]
  | some t => simp [deriveRow]

/-- Witness for C5: the Completed 300-value row survives a
Completed-status filter and its flag is the one given by the full-dataset
threshold. -/
theorem c5_flag_invariant_witness :
    deriveRow (booking_value_threshold rawsC4) rawC300 ∈
      filtered_df (fun r => r.bookingStatus = "Completed")
        (add_derived_features rawsC4) ∧
    (deriveRow (booking_value_threshold rawsC4) rawC300).highValueTrip =
      match booking_value_threshold rawsC4 with
      | none => 0
      | some t =>
        if t ≤ (deriveRow (booking_value_threshold rawsC4) rawC300).bookingValue
        then 1 else 0 := by
  have hf : filtered_df (fun r => r.bookingStatus = "Completed")
      (add_derived_features rawsC4)
      = [deriveRow (booking_value_threshold rawsC4) rawC100,
         deriveRow (booking_value_threshold rawsC4) rawC300] := rfl
  have hmem : deriveRow (booking_value_threshold rawsC4) rawC300 ∈
      filtered_df (fun r => r.bookingStatus = "Completed")
        (add_derived_features rawsC4) := by
    rw [hf]
    exact List.mem_cons_of_mem _ (List.mem_singleton_self _)
  exact ⟨hmem,
    c5_flag_invariant_under_filtering rawsC4
      (fun r => r.bookingStatus = "Completed") _ hmem⟩

/-- C6: rows with unparsable date+time text are kept (derivation is a
per-row map preserving length), receive a null timestamp, and every
time-bucketed aggregate counts exactly the rows whose timestamp is
non-null — null-timestamp rows are excluded from Hour, Day-of-Week and
Month volumes alike. -/
theorem c6_unparsable_timestamps (raw : List RawRow) :
    (add_derived_features raw).length = raw.length ∧
    (∀ r0 ∈ raw, parseTimestamp (r0.date ++ " " ++ r0.time) = none →
      (deriveRow (booking_value_threshold raw) r0).timestamp = none) ∧
    ((prepare_volume_data_hour (add_derived_features raw)).map
        (fun p => p.2)).sum
      = (add_derived_features raw).countP (fun r => r.timestamp.isSome) ∧
    ((prepare_volume_data_dow (add_derived_features raw)).map
        (fun p => p.2)).sum
      = (add_derived_features raw).countP (fun r => r.timestamp.isSome) ∧
    ((prepare_volume_data_month (add_derived_features raw)).map
        (fun p => p.2)).sum
      = (add_derived_features raw).countP (fun r => r.timestamp.isSome) := by
  have hh : ∀ d : List Row,
      d.countP (fun r => (hourKey r).isSome)
        = d.countP (fun r => r.timestamp.isSome) :=
    fun d => List.countP_congr
      (fun r _ => by unfold hourKey; cases r.timestamp <;> simp)
  have hd : ∀ d : List Row,
      d.countP (fun r => (dowKey r).isSome)
        = d.countP (fun r => r.timestamp.isSome) :=
    fun d => List.countP_congr
      (fun r _ => by unfold dowKey; cases r.timestamp <;> simp)
  have hm : ∀ d : List Row,
      d.countP (fun r => (monthKey r).isSome)
        = d.countP (fun r => r.timestamp.isSome) :=
    fun d => List.countP_congr
      (fun r _ => by unfold monthKey; cases r.timestamp <;> simp)
  refine ⟨List.length_map raw _, ?_, ?_, ?_, ?_⟩
  · intro r0 _ hp
    simp only [deriveRow]
    exact hp
  · unfold prepare_volume_data_hour
    rw [volumeAgg_sum, hh]
  · unfold prepare_volume_data_dow
    rw [volumeAgg_sum, hd]
  · unfold prepare_volume_data_month
    rw [volumeAgg_sum, hm]

/-- Witness for C6: a row with unparsable date+time text gets a null
timestamp, and the derived set keeps all rows with aggregate counts equal
to the number of parseable rows. -/
theorem c6_unparsable_timestamps_witness :
    parseTimestamp (rawBad.date ++ " " ++ rawBad.time) = none ∧
    (deriveRow (booking_value_threshold [rawBad]) rawBad).timestamp = none ∧
    (add_derived_features [rawBad]).length = 1 := by
  refine ⟨by decide, ?_, (c6_unparsable_timestamps [rawBad]).1⟩
  exact (c6_unparsable_timestamps [rawBad]).2.1 rawBad
    (List.mem_singleton_self _) (by decide)

/-- An in-bounds `getD` returns an element of the list. -/
theorem getD_mem {α : Type} : ∀ (L : List α) (i : Nat) (d : α),
    i < L.length → L.getD i d ∈ L
  | [], i, _, h => absurd h (Nat.not_lt_zero i)
  | a :: t, 0, _, _ => List.mem_cons_self a t
  | a :: t, i + 1, d, h =>
    List.mem_cons_of_mem a (getD_mem t i d (Nat.lt_of_succ_lt_succ h))

/-- The Sakamoto index is always below 7. -/
theorem dayOfWeekIdx_lt (y m d : Nat) : dayOfWeekIdx y m d < 7 := by
  unfold dayOfWeekIdx
  exact Nat.mod_lt _ (by norm_num)

/-- Every day name produced by the grouping key is one of the seven
English day names. -/
theorem dowKey_mem_names (r : Row) (s : String) (h : dowKey r = some s) :
    s ∈ sundayFirstNames := by
  unfold dowKey at h
  cases hts : r.timestamp with
  | none => rw [hts] at h; cases h
  | some ts =>
    rw [hts] at h
    have h2 : dayNameOf ts = s := by injection h
    subst h2
    exact getD_mem _ _ _ (by rw [show sundayFirstNames.length = 7 from rfl]
                             exact dayOfWeekIdx_lt ts.year ts.month ts.day)

/-- `dayIdx` separates the seven day names. -/
theorem dayIdx_inj_on_names :
    ∀ a ∈ sundayFirstNames, ∀ b ∈ sundayFirstNames,
      dayIdx a = dayIdx b → a = b := by
  decide

/-- The day-of-week key list of a record set is strictly increasing in the
categorical Monday→Sunday index. -/
theorem dow_keys_strict (l : List Row) :
    List.Pairwise (fun a b : String => dayIdx a < dayIdx b)
      (List.insertionSort (fun a b : String => dayIdx a ≤ dayIdx b)
        (l.filterMap dowKey).dedup) := by
  haveI : IsTotal String (fun a b : String => dayIdx a ≤ dayIdx b) :=
    ⟨fun a b => Nat.le_total _ _⟩
  haveI : IsTrans String (fun a b : String => dayIdx a ≤ dayIdx b) :=
    ⟨fun _ _ _ h1 h2 => Nat.le_trans h1 h2⟩
  have hs : List.Sorted (fun a b : String => dayIdx a ≤ dayIdx b)
      (List.insertionSort (fun a b : String => dayIdx a ≤ dayIdx b)
        (l.filterMap dowKey).dedup) :=
    List.sorted_insertionSort _ _
  have hn : (List.insertionSort (fun a b : String => dayIdx a ≤ dayIdx b)
      (l.filterMap dowKey).dedup).Nodup :=
    (List.perm_insertionSort _ _).symm.nodup (List.nodup_dedup _)
  have hsub : ∀ x ∈ List.insertionSort (fun a b : String => dayIdx a ≤ dayIdx b)
      (l.filterMap dowKey).dedup, x ∈ sundayFirstNames := by
    intro x hx
    have hx' := List.mem_dedup.mp ((List.perm_insertionSort _ _).mem_iff.mp hx)
    obtain ⟨r, _, hr⟩ := List.mem_filterMap.mp hx'
    exact dowKey_mem_names r x hr
  refine (hs.and hn).imp_of_mem (fun ha hb hab => ?_)
  refine lt_of_le_of_ne hab.1 (fun heq => hab.2 ?_)
  exact dayIdx_inj_on_names _ (hsub _ ha) _ (hsub _ hb) heq

/-- C8: the Day-of-Week volume pairs are strictly ordered by the
Monday→Sunday categorical index, and the output is the same for any
reordering of the input rows (first-seen order is irrelevant). -/
theorem c8_dow_monday_to_sunday (l l' : List Row) (hp : List.Perm l l') :
    List.Pairwise (fun a b : String × Nat => dayIdx a.1 < dayIdx b.1)
      (prepare_volume_data_dow l) ∧
    prepare_volume_data_dow l = prepare_volume_data_dow l' := by
  constructor
  · have hkeys := volumeAgg_keys dowKey
      (fun a b : String => dayIdx a ≤ dayIdx b) l
    have hstrict := dow_keys_strict l
    rw [← hkeys] at hstrict
    exact (List.pairwise_map.mp hstrict).imp (fun hab => hab)
  · haveI : IsAntisymm String (fun a b : String => dayIdx a < dayIdx b) :=
      ⟨fun a b h1 h2 => absurd h1 (Nat.lt_asymm h2)⟩
    have hkperm : List.Perm
        (List.insertionSort (fun a b : String => dayIdx a ≤ dayIdx b)
          (l.filterMap dowKey).dedup)
        (List.insertionSort (fun a b : String => dayIdx a ≤ dayIdx b)
          (l'.filterMap dowKey).dedup) :=
      (List.perm_insertionSort _ _).trans
        (((hp.filterMap dowKey).dedup).trans (List.perm_insertionSort _ _).symm)
    have hkeq := List.eq_of_perm_of_sorted hkperm (dow_keys_strict l)
      (dow_keys_strict l')
    unfold prepare_volume_data_dow volumeAgg
    rw [hkeq]
    refine List.map_congr_left (fun key _ => ?_)
    rw [List.Perm.countP_eq _ hp]

/-- Witness for C8: with Wednesday occurring before Monday in the input,
the output still lists Monday first, and swapping the two input rows
leaves the output unchanged. -/
theorem c8_dow_monday_to_sunday_witness :
    prepare_volume_data_dow [rowWed, rowH5]
        = [("Monday", 1), ("Wednesday", 1)] ∧
    prepare_volume_data_dow [rowWed, rowH5]
        = prepare_volume_data_dow [rowH5, rowWed] :=
  ⟨by decide,
   (c8_dow_monday_to_sunday [rowWed, rowH5] [rowH5, rowWed]
     (List.Perm.swap rowH5 rowWed [])).2⟩

/-!  ### Evaluation of the display rounding on concrete values  -/

theorem roundHalfEven_of_lt (q : ℚ) (f : ℤ) (hf : ⌊q⌋ = f)
    (hr : q - f < 1 / 2) : roundHalfEven q = f := by
  simp only [roundHalfEven]
  rw [hf]
  rw [if_pos hr]

theorem roundHalfEven_of_gt (q : ℚ) (f : ℤ) (hf : ⌊q⌋ = f)
    (hr : 1 / 2 < q - f) : roundHalfEven q = f + 1 := by
  simp only [roundHalfEven]
  rw [hf]
  rw [if_neg (by linarith), if_pos hr]

theorem round_to_down (d : Nat) (q : ℚ) (f : ℤ)
    (h1 : (f : ℚ) ≤ q * 10 ^ d) (h2 : q * 10 ^ d < f + 1)
    (h3 : q * 10 ^ d - f < 1 / 2) :
    round_to d q = (f : ℚ) / 10 ^ d := by
  unfold round_to
  rw [roundHalfEven_of_lt (q * 10 ^ d) f (Int.floor_eq_iff.mpr ⟨h1, h2⟩) h3]

theorem round_to_up (d : Nat) (q : ℚ) (f : ℤ)
    (h1 : (f : ℚ) ≤ q * 10 ^ d) (h2 : q * 10 ^ d < f + 1)
    (h3 : 1 / 2 < q * 10 ^ d - f) :
    round_to d q = ((f + 1 : ℤ) : ℚ) / 10 ^ d := by
  unfold round_to
  rw [roundHalfEven_of_gt (q * 10 ^ d) f (Int.floor_eq_iff.mpr ⟨h1, h2⟩) h3]

/-!  ### The running example for the per-vehicle-type table  -/

/-- Completed Auto row, value 100, distance 10, rating 5. -/
def rowA1 : Row :=
  mkTestRow ("Completed") ("Auto") 100 10 (some 5) ("2024-01-01") ("05:00:00")

/-- Completed Auto row, value 300, distance 20, rating 4. -/
def rowA2 : Row :=
  mkTestRow ("Completed") ("Auto") 300 20 (some 4) ("2024-01-01") ("22:00:00")

/-- Cancelled-by-Driver Auto row, value 50, distance 0, no rating. -/
def rowA3 : Row :=
  mkTestRow ("Cancelled by Driver") ("Auto") 50 0 none ("2024-01-01") ("23:00:00")

/-- One vehicle type, 2 Completed rows and 1 Cancelled-by-Driver row. -/
def exC7 : List Row := [rowA1, rowA2, rowA3]

/-- The expected per-vehicle-type table row of the running example. -/
def mAuto : VehicleMetricsRow :=
  { vehicleType := "Auto"
    totalBookings := 3
    successRate := 667 / 10
    incompleteRate := 0
    cancellationRate := 333 / 10
    averageRevenue := 150
    averageDistance := 10
    averageDriverRating := some (9 / 2) }

/-- C7: the per-vehicle-type table has exactly one row per vehicle type
present; each row reports the group size, the Completed / Incomplete /
(customer-or-driver-)cancelled percentages rounded to 1 decimal, and the
group means of booking value, ride distance and (non-null) driver rating
rounded to 2 decimals; on the 2-Completed-1-Cancelled example the row is
Total Bookings 3, Success Rate 66.7, Cancellation Rate 33.3. -/
theorem c7_vehicle_type_table (l : List Row) :
    ((vehicle_type_metrics_dataframe l).map (fun m => m.vehicleType)).Nodup ∧
    (∀ v : String,
      (∃ m ∈ vehicle_type_metrics_dataframe l, m.vehicleType = v) ↔
        v ∈ l.map (fun r => r.vehicleType)) ∧
    (∀ m ∈ vehicle_type_metrics_dataframe l,
      m.totalBookings
          = (l.filter (fun r => r.vehicleType = m.vehicleType)).length ∧
      m.successRate = round_to 1
          (((l.filter (fun r => r.vehicleType = m.vehicleType)).countP
              (fun r => r.bookingStatus = "Completed") : ℚ)
            / (l.filter (fun r => r.vehicleType = m.vehicleType)).length
            * 100) ∧
      m.incompleteRate = round_to 1
          (((l.filter (fun r => r.vehicleType = m.vehicleType)).countP
              (fun r => r.bookingStatus = "Incomplete") : ℚ)
            / (l.filter (fun r => r.vehicleType = m.vehicleType)).length
            * 100) ∧
      m.cancellationRate = round_to 1
          (((l.filter (fun r => r.vehicleType = m.vehicleType)).countP
              (fun r => r.bookingStatus = "Cancelled by Customer" ∨
                r.bookingStatus = "Cancelled by Driver") : ℚ)
            / (l.filter (fun r => r.vehicleType = m.vehicleType)).length
            * 100) ∧
      m.averageRevenue = round_to 2
          (((l.filter (fun r => r.vehicleType = m.vehicleType)).map
              (fun r => r.bookingValue)).sum
            / (l.filter (fun r => r.vehicleType = m.vehicleType)).length) ∧
      m.averageDistance = round_to 2
          (((l.filter (fun r => r.vehicleType = m.vehicleType)).map
              (fun r => r.rideDistance)).sum
            / (l.filter (fun r => r.vehicleType = m.vehicleType)).length) ∧
      m.averageDriverRating =
          (meanOpt ((l.filter (fun r => r.vehicleType = m.vehicleType)).filterMap
              (fun r => r.driverRatings))).map (round_to 2)) ∧
    vehicle_type_metrics_dataframe exC7 = [mAuto] := by
  refine ⟨?_, ?_, ?_, ?_⟩
  · unfold vehicle_type_metrics_dataframe
    rw [List.map_map]
    have hcomp :
        ((fun m : VehicleMetricsRow => m.vehicleType) ∘ vehicleRowOf l) = id := rfl
    rw [hcomp, List.map_id]
    exact (List.perm_insertionSort strLe _).symm.nodup (List.nodup_dedup _)
  · intro v
    constructor
    · rintro ⟨m, hm, rfl⟩
      obtain ⟨v', hv', rfl⟩ := List.mem_map.mp hm
      have : v' ∈ (l.map (fun r => r.vehicleType)).dedup :=
        (List.perm_insertionSort strLe _).mem_iff.mp hv'
      exact List.mem_dedup.mp this
    · intro hv
      refine ⟨_, List.mem_map_of_mem _
        ((List.perm_insertionSort strLe _).mem_iff.mpr (List.mem_dedup.mpr hv)),
        rfl⟩
  · intro m hm
    obtain ⟨v, _, rfl⟩ := List.mem_map.mp hm
    exact ⟨rfl, rfl, rfl, rfl, rfl, rfl, rfl⟩
  · have hkeys : List.insertionSort strLe
        ((exC7.map (fun r => r.vehicleType)).dedup) = ["Auto"] := rfl
    simp only [vehicle_type_metrics_dataframe]
    rw [hkeys]
    simp only [List.map_cons, List.map_nil]
    refine congrArg (fun x => [x]) ?_
    simp only [vehicleRowOf]
    have hfe : exC7.filter (fun r => r.vehicleType = "Auto") = exC7 := rfl
    rw [hfe]
    have hlen : exC7.length = 3 := rfl
    have hsucc : exC7.countP (fun r => r.bookingStatus = "Completed") = 2 := rfl
    have hinc : exC7.countP (fun r => r.bookingStatus = "Incomplete") = 0 := rfl
    have hcan : exC7.countP (fun r =>
        r.bookingStatus = "Cancelled by Customer" ∨
        r.bookingStatus = "Cancelled by Driver") = 1 := rfl
    have hbv : exC7.map (fun r => r.bookingValue) = [100, 300, 50] := rfl
    have hrd : exC7.map (fun r => r.rideDistance) = [10, 20, 0] := rfl
    have hfr : exC7.filterMap (fun r => r.driverRatings) = [5, 4] := rfl
    rw [hlen, hsucc, hinc, hcan, hbv, hrd, hfr]
    unfold mAuto
    rw [VehicleMetricsRow.mk.injEq]
    refine ⟨rfl, rfl, ?_, ?_, ?_, ?_, ?_, ?_⟩
    · have hq : ((2 : ℕ) : ℚ) / ((3 : ℕ) : ℚ) * 100 = 200 / 3 := by
        push_cast
        ring
      rw [hq, round_to_up 1 (200 / 3) 666 (by norm_num) (by norm_num) (by norm_num)]
      norm_num
    · have hq : ((0 : ℕ) : ℚ) / ((3 : ℕ) : ℚ) * 100 = 0 := by
        push_cast
        ring
      rw [hq, round_to_down 1 0 0 (by norm_num) (by norm_num) (by norm_num)]
      norm_num
    · have hq : ((1 : ℕ) : ℚ) / ((3 : ℕ) : ℚ) * 100 = 100 / 3 := by
        push_cast
        ring
      rw [hq, round_to_down 1 (100 / 3) 333 (by norm_num) (by norm_num) (by norm_num)]
      norm_num
    · have hq : (([100, 300, 50] : List ℚ).sum) / ((3 : ℕ) : ℚ) = 150 := by
        norm_num [List.sum_cons, List.sum_nil]
      rw [hq, round_to_down 2 150 15000 (by norm_num) (by norm_num) (by norm_num)]
      norm_num
    · have hq : (([10, 20, 0] : List ℚ).sum) / ((3 : ℕ) : ℚ) = 10 := by
        norm_num [List.sum_cons, List.sum_nil]
      rw [hq, round_to_down 2 10 1000 (by norm_num) (by norm_num) (by norm_num)]
      norm_num
    · have hq : meanOpt [(5 : ℚ), 4] = some (9 / 2) := by
        norm_num [meanOpt, List.sum_cons, List.sum_nil]
      rw [hq]
      simp only [Option.map]
      rw [round_to_down 2 (9 / 2) 450 (by norm_num) (by norm_num) (by norm_num)]
      norm_num

/-- Witness for C7: the expected row is in the table of the example and
its Total Bookings is the group size. -/
theorem c7_vehicle_type_table_witness :
    mAuto ∈ vehicle_type_metrics_dataframe exC7 ∧
    mAuto.totalBookings
        = (exC7.filter (fun r => r.vehicleType = mAuto.vehicleType)).length := by
  have hmem : mAuto ∈ vehicle_type_metrics_dataframe exC7 := by
    rw [(c7_vehicle_type_table exC7).2.2.2]
    exact List.mem_singleton_self mAuto
  exact ⟨hmem, ((c7_vehicle_type_table exC7).2.2.1 mAuto hmem).1⟩

end Uber
